import Mathlib

/-!
Shallow embedding of the backend of the mcp-supreme-demo-app repository
(src/backend/server.js): the Mongoose data model (userSchema, projectSchema),
the authentication and project routes, and the socket.io realtime relay.

Conventions of the embedding:
  * Mongo ObjectId values are strings; the cast of a path parameter
    to an ObjectId fails exactly when the string is not 24 hexadecimal
    characters, and store calls are `Except`-valued so a failed cast is the
    thrown error that the catch block of each route maps to HTTP 500.
  * A JSON request body is a structure of `Option` fields: `none` means the
    key is absent, `some v` means the key is present with value `v`.
  * `bcrypt.compare` is an external primitive and is passed to `login` as a
    function argument.
  * Route handlers return an HTTP `Response` (status code plus JSON body)
    together with the resulting store state.
-/

namespace McpDemo

/-- The `status` enum of `projectSchema`. -/
inductive Status where
  | planning
  | development
  | testing
  | deployed
deriving DecidableEq, Repr

/-- A stored Project document (`projectSchema` in server.js). -/
structure Project where
  _id : String
  name : String
  description : Option String
  technology : String
  status : Status
  owner : String
  collaborators : List String
  createdAt : Nat
  updatedAt : Nat
deriving DecidableEq, Repr

/-- A stored User document (`userSchema` in server.js); `password` holds the
bcrypt hash. -/
structure User where
  _id : String
  username : String
  email : String
  password : String
  role : String
  createdAt : Nat
deriving DecidableEq, Repr

/-- The JSON body of a request, as read by the project routes: each field is
`some v` when the key is present.  POST /api/projects destructures only
`name`, `description` and `technology`; the remaining keys model a client
that also supplies them. -/
structure ReqBody where
  name : Option String
  description : Option String
  technology : Option String
  status : Option Status
  owner : Option String
  collaborators : Option (List String)
  createdAt : Option Nat
deriving DecidableEq, Repr

/-- The JSON body of an HTTP response. -/
inductive Body where
  | error (msg : String)
  | projectDoc (p : Project)
  | projectList (ps : List Project)
  | message (msg : String)
  | loginSuccess (userId username email role : String)
deriving DecidableEq, Repr

/-- An HTTP response: status code and JSON body. -/
structure Response where
  status : Nat
  body : Body
deriving DecidableEq, Repr

/-- A hexadecimal digit as accepted by the ObjectId cast. -/
def isHexChar (c : Char) : Bool :=
  c.isDigit || (('a' ≤ c && c ≤ 'f') || ('A' ≤ c && c ≤ 'F'))

/-- Validity of a Mongo ObjectId string: 24 hexadecimal characters.  The
Mongoose driver throws a CastError on any other `:id` path parameter. -/
def isValidObjectId (s : String) : Bool :=
  s.data.length == 24 && s.data.all isHexChar

/-- The `$or: [{owner: userId}, {collaborators: userId}]` filter shared by
GET /api/projects, PUT /api/projects/:id and the analytics route. -/
def visibleTo (userId : String) (p : Project) : Bool :=
  p.owner == userId || p.collaborators.contains userId

/-- `Project.find` with the owner-or-collaborator filter: all projects
visible to the caller, in store (insertion) order. -/
def projectFind (db : List Project) (userId : String) : List Project :=
  db.filter (visibleTo userId)

/-- `Project.findOne` by id with the owner-or-collaborator filter: throws on
an invalid id cast, otherwise the first matching document. -/
def projectFindOneVisible (db : List Project) (id userId : String) :
    Except Unit (Option Project) :=
  if isValidObjectId id then
    .ok (db.find? (fun p => p._id == id && visibleTo userId p))
  else
    .error ()

/-- `Project.findOne` by id with the owner-only filter, used by the DELETE
route: throws on an invalid id cast, otherwise the first matching document. -/
def projectFindOneOwned (db : List Project) (id userId : String) :
    Except Unit (Option Project) :=
  if isValidObjectId id then
    .ok (db.find? (fun p => p._id == id && p.owner == userId))
  else
    .error ()

/-- GET /api/projects: returns the projects visible to the authenticated
caller (population of owner/collaborator references does not change which
projects are returned nor their own fields). -/
def getProjects (db : List Project) (userId : String) : Response :=
  { status := 200, body := .projectList (projectFind db userId) }

/-- Save-time validation and casting of a project document by Mongoose:
the `required` validator on a String path fails for an absent, null or
empty-string value (`name` and `technology`), and the ObjectId paths
(`owner`, each entry of `collaborators`) must cast.  `save` throws when any
of these fails, and the thrown error reaches the catch block of the route,
which answers HTTP 500 without persisting the document. -/
def validSave (p : Project) : Bool :=
  !p.name.isEmpty && !p.technology.isEmpty &&
    isValidObjectId p.owner && p.collaborators.all isValidObjectId

/-- The document built by `new Project` in the create route, with the
schema defaults filled in: `status: planning`, empty `collaborators`, both
timestamps now. -/
def newProjectDoc (now : Nat) (freshId userId name : String)
    (description : Option String) (technology : String) : Project :=
  { _id := freshId, name := name, description := description,
    technology := technology, status := .planning, owner := userId,
    collaborators := [], createdAt := now, updatedAt := now }

/-- POST /api/projects: destructures `name`, `description`, `technology` from
the body, builds `new Project({name, description, technology, owner})` and
saves it.  Mongoose fills the defaults (`status: planning`, empty
`collaborators`, timestamps now) and `save` runs validation: it throws when
a required field (`name` or `technology`) is missing or an empty string, or
when an ObjectId path does not cast; the thrown error is mapped to HTTP 500
by the catch block and nothing is persisted. -/
def createProject (db : List Project) (now : Nat) (freshId userId : String)
    (body : ReqBody) : Response × List Project :=
  match body.name, body.technology with
  | some name, some technology =>
      let p := newProjectDoc now freshId userId name body.description
        technology
      if validSave p then
        ({ status := 201, body := .projectDoc p }, db ++ [p])
      else
        ({ status := 500, body := .error "Internal server error" }, db)
  | _, _ =>
      ({ status := 500, body := .error "Internal server error" }, db)

/-- `Object.assign(project, updates)`: every key present in the body
overwrites the corresponding top-level field of the document. -/
def assignUpdates (p : Project) (u : ReqBody) : Project :=
  { p with
    name := u.name.getD p.name,
    description := match u.description with
      | some d => some d
      | none => p.description,
    technology := u.technology.getD p.technology,
    status := u.status.getD p.status,
    owner := u.owner.getD p.owner,
    collaborators := u.collaborators.getD p.collaborators,
    createdAt := u.createdAt.getD p.createdAt }

/-- PUT /api/projects/:id: finds the project by id restricted to the caller
being owner or collaborator; 404 with `Project not found` when none matches;
otherwise `Object.assign(project, updates)`, `updatedAt = now`, save.  Both
a thrown id-cast error and a thrown save validation or casting error (an
empty-string required field, a non-castable ObjectId in `owner` or
`collaborators`) reach the catch block and are mapped to HTTP 500, and a
failed save persists nothing. -/
def updateProject (db : List Project) (now : Nat) (userId id : String)
    (updates : ReqBody) : Response × List Project :=
  match projectFindOneVisible db id userId with
  | .error _ =>
      ({ status := 500, body := .error "Internal server error" }, db)
  | .ok none =>
      ({ status := 404, body := .error "Project not found" }, db)
  | .ok (some project) =>
      let p := { assignUpdates project updates with updatedAt := now }
      if validSave p then
        ({ status := 200, body := .projectDoc p },
         db.map (fun q => if q._id == id then p else q))
      else
        ({ status := 500, body := .error "Internal server error" }, db)

/-- DELETE /api/projects/:id: finds the project by id restricted to the
caller being the owner; 404 when none matches; otherwise
`findByIdAndDelete`.  A thrown id-cast error is mapped to HTTP 500. -/
def deleteProject (db : List Project) (userId id : String) :
    Response × List Project :=
  match projectFindOneOwned db id userId with
  | .error _ =>
      ({ status := 500, body := .error "Internal server error" }, db)
  | .ok none =>
      ({ status := 404,
         body := .error "Project not found or insufficient permissions" }, db)
  | .ok (some _) =>
      ({ status := 200, body := .message "Project deleted successfully" },
       db.filter (fun p => p._id != id))

/-- POST /api/auth/login: `User.findOne` by email; a missing user and a
failed `bcrypt.compare` both answer 401 `Invalid credentials`; on success a
token is issued (the external `jwt.sign` is not part of the response model)
and the public user view is returned. -/
def login (compare : String → String → Bool) (users : List User)
    (email password : String) : Response :=
  match users.find? (fun u => u.email == email) with
  | none => { status := 401, body := .error "Invalid credentials" }
  | some user =>
      if compare password user.password then
        { status := 200,
          body := .loginSuccess user._id user.username user.email user.role }
      else
        { status := 401, body := .error "Invalid credentials" }

/-- The socket.io room membership table: pairs of connection id and room
name. -/
abbrev Rooms := List (String × String)

/-- The room name used by the realtime relay for a project channel. -/
def roomOf (projectId : String) : String :=
  "project-" ++ projectId

/-- The `join-project` handler: `socket.join` on the room of the project;
joining an already-joined room has no effect. -/
def joinProject (rooms : Rooms) (connId projectId : String) : Rooms :=
  if rooms.contains (connId, roomOf projectId) then rooms
  else rooms ++ [(connId, roomOf projectId)]

/-- The `disconnect` handler: the connection leaves every room. -/
def disconnectConn (rooms : Rooms) (connId : String) : Rooms :=
  rooms.filter (fun m => m.1 != connId)

/-- The `project-update` handler:
`socket.to` on the room of the project followed by `emit`
delivers to every member of the room except the sender.  The result is the
list of connection ids that receive the `project-updated` event. -/
def projectUpdateRecipients (rooms : Rooms) (senderId projectId : String) :
    List String :=
  (rooms.filter (fun m => m.2 == roomOf projectId && m.1 != senderId)).map
    (fun m => m.1)

/-! Concrete sample data used by the closed witness and counterexample
theorems below: two user ids and a project id in valid ObjectId format, and
small request bodies. -/

/-- A sample user id (valid ObjectId format). -/
def idA : String := "aaaaaaaaaaaaaaaaaaaaaaaa"

/-- A second sample user id (valid ObjectId format). -/
def idB : String := "bbbbbbbbbbbbbbbbbbbbbbbb"

/-- A sample project id (valid ObjectId format). -/
def pid1 : String := "cccccccccccccccccccccccc"

/-- A sample stored project owned by `idA` with no collaborators. -/
def pDemo : Project :=
  { _id := pid1, name := "Demo", description := none, technology := "React",
    status := .planning, owner := idA, collaborators := [], createdAt := 0,
    updatedAt := 0 }

/-- A sample stored project owned by `idA` with `idB` as collaborator. -/
def pShared : Project :=
  { _id := pid1, name := "Demo", description := none, technology := "React",
    status := .planning, owner := idA, collaborators := [idB], createdAt := 0,
    updatedAt := 0 }

/-- The empty request body: no keys present. -/
def emptyBody : ReqBody :=
  { name := none, description := none, technology := none, status := none,
    owner := none, collaborators := none, createdAt := none }

/-- A create body carrying only name and technology. -/
def bodyDemo : ReqBody :=
  { emptyBody with name := some "Demo", technology := some "React" }

/-- A create body with the required `name` key missing. -/
def bodyNoName : ReqBody :=
  { emptyBody with technology := some "React" }

/-- An update body whose only key is `owner`, set to `idB`. -/
def patchOwner : ReqBody :=
  { emptyBody with owner := some idB }

/-- An update body whose only key is `status`, set to `deployed`. -/
def patchStatus : ReqBody :=
  { emptyBody with status := some Status.deployed }

/-- A create body that also supplies `status`, `owner`, `collaborators` and
`createdAt` keys, which the create route never reads. -/
def bodyExtra : ReqBody :=
  { name := some "Demo", description := none, technology := some "React",
    status := some Status.deployed, owner := some idB,
    collaborators := some [idB], createdAt := some 99 }

/-- A sample registered user. -/
def uAlice : User :=
  { _id := idA, username := "alice", email := "alice@x.com",
    password := "storedhash", role := "user", createdAt := 0 }

/-! Helper lemmas about the store search primitives. -/

/-- When some project in the store has the searched id and is visible to the
caller, and ids are unique, the visible-filtered `findOne` returns exactly
that project. -/
theorem find_visible_of_unique {db : List Project} {p : Project}
    {pid uid : String} (hp : p ∈ db) (hid : p._id = pid)
    (hvis : visibleTo uid p = true)
    (huniq : ∀ q ∈ db, q._id = pid → q = p) :
    db.find? (fun q => q._id == pid && visibleTo uid q) = some p := by
  induction db with
  | nil => cases hp
  | cons a l ih =>
    by_cases ha : a._id = pid
    · have hap : a = p := huniq a (List.mem_cons_self a l) ha
      subst hap
      simp [List.find?, ha, hvis]
    · have hne : a ≠ p := fun h => ha (h ▸ hid)
      have hp' : p ∈ l := by
        rcases List.mem_cons.mp hp with h | h
        · exact absurd h.symm hne
        · exact h
      have hpred : (a._id == pid && visibleTo uid a) = false := by
        simp [ha]
      rw [List.find?_cons, hpred]
      exact ih hp' (fun q hq hq' => huniq q (List.mem_cons_of_mem a hq) hq')

/-- Reduction of the create route when both required keys are present: the
outcome depends only on the save validation of the built document. -/
theorem createProject_eq (db : List Project) (now : Nat)
    (freshId uid nm tech : String) (body : ReqBody)
    (hn : body.name = some nm) (ht : body.technology = some tech) :
    createProject db now freshId uid body =
      if validSave (newProjectDoc now freshId uid nm body.description tech) =
          true then
        ({ status := 201,
           body := .projectDoc
             (newProjectDoc now freshId uid nm body.description tech) },
         db ++ [newProjectDoc now freshId uid nm body.description tech])
      else
        ({ status := 500, body := .error "Internal server error" }, db) := by
  simp only [createProject, hn, ht]

/-- The room-name encoding of project channels is injective. -/
theorem roomOf_injective {a b : String} (h : roomOf a = roomOf b) : a = b := by
  have h2 : (roomOf a).data = (roomOf b).data := by rw [h]
  rw [roomOf, roomOf, String.data_append, String.data_append] at h2
  exact String.ext (List.append_cancel_left h2)

/-- Claim C1 counterexample: the owner field is not fixed after creation.
Concretely, user `idA` creates a project (owner `idA`), then `idA` itself —
an authorized caller — sends an update whose body contains an `owner` key
set to `idB`; the update succeeds with HTTP 200 and the stored project now
has owner `idB ≠ idA`, because `Object.assign(project, updates)` copies
every key of the body, including `owner`. -/
theorem C1_owner_reassigned_counterexample :
    (createProject [] 0 pid1 idA bodyDemo).2.map Project.owner = [idA] ∧
    (updateProject (createProject [] 0 pid1 idA bodyDemo).2 5 idA pid1
      patchOwner).1.status = 200 ∧
    (updateProject (createProject [] 0 pid1 idA bodyDemo).2 5 idA pid1
      patchOwner).2.map Project.owner = [idB] ∧
    idB ≠ idA := by decide

/-- Claim C1 (amended): create sets the new project's owner to the caller,
and update preserves the owner of every stored project whenever the patch
does not contain an `owner` key; a patch that does contain an `owner` key
reassigns the owner to the supplied value. -/
theorem C1_owner_fixed_without_owner_key (db : List Project) (now : Nat)
    (freshId uid pid : String) (body updates : ReqBody)
    (hu : updates.owner = none) :
    (∀ p, (createProject db now freshId uid body).1.body = .projectDoc p →
      p.owner = uid) ∧
    ∀ q ∈ (updateProject db now uid pid updates).2,
      ∃ q0 ∈ db, q0._id = q._id ∧ q.owner = q0.owner := by
  constructor
  · intro p hp
    cases hn : body.name with
    | none =>
      cases ht : body.technology <;>
        simp [createProject, hn, ht] at hp
    | some nm =>
      cases ht : body.technology with
      | none => simp [createProject, hn, ht] at hp
      | some tech =>
        simp only [createProject, hn, ht] at hp
        split at hp
        · simp only at hp
          cases hp
          rfl
        · simp at hp
  · intro q hq
    unfold updateProject at hq
    cases hfind : projectFindOneVisible db pid uid with
    | error e =>
      rw [hfind] at hq
      exact ⟨q, hq, rfl, rfl⟩
    | ok o =>
      cases o with
      | none =>
        rw [hfind] at hq
        exact ⟨q, hq, rfl, rfl⟩
      | some project =>
        rw [hfind] at hq
        simp only at hq
        split at hq
        case isFalse =>
          exact ⟨q, hq, rfl, rfl⟩
        case isTrue =>
        rcases List.mem_map.mp hq with ⟨q0, hq0, hq0eq⟩
        by_cases hcond : (q0._id == pid) = true
        · rw [if_pos hcond] at hq0eq
          have hproj : project ∈ db := by
            have : projectFindOneVisible db pid uid =
                .ok (db.find? (fun p => p._id == pid && visibleTo uid p)) ∨
                projectFindOneVisible db pid uid = .error () := by
              unfold projectFindOneVisible
              by_cases hv : isValidObjectId pid = true
              · exact Or.inl (by rw [if_pos hv])
              · exact Or.inr (by rw [if_neg hv])
            rcases this with h | h
            · rw [hfind] at h
              have := h.symm
              simp only [Except.ok.injEq] at this
              exact List.mem_of_find?_eq_some this
            · rw [hfind] at h
              cases h
          refine ⟨project, hproj, ?_, ?_⟩
          · have : q._id = project._id := by
              rw [← hq0eq]
              simp [assignUpdates]
            exact this.symm
          · rw [← hq0eq]
            simp [assignUpdates, hu]
        · rw [if_neg hcond] at hq0eq
          exact ⟨q0, hq0, by rw [hq0eq], by rw [hq0eq]⟩

/-- Witness for the amended C1 theorem at concrete inputs: store `[pDemo]`,
caller `idA`, a status-only patch (no `owner` key). -/
theorem C1_owner_fixed_witness :
    (∀ p, (createProject [pDemo] 5 pid1 idA bodyDemo).1.body = .projectDoc p →
      p.owner = idA) ∧
    ∀ q ∈ (updateProject [pDemo] 5 idA pid1 patchStatus).2,
      ∃ q0 ∈ [pDemo], q0._id = q._id ∧ q.owner = q0.owner :=
  C1_owner_fixed_without_owner_key [pDemo] 5 pid1 idA pid1 bodyDemo
    patchStatus rfl

/-- Claim C2 counterexample: a create request with the required `name` key
missing is answered with HTTP 500 (the Mongoose validation error thrown by
`save` reaches the generic catch block), not with HTTP 400 as the claim
states; no project is persisted. -/
theorem C2_missing_field_counterexample :
    (createProject [] 0 pid1 idA bodyNoName).1.status = 500 ∧
    ¬(createProject [] 0 pid1 idA bodyNoName).1.status = 400 ∧
    (createProject [] 0 pid1 idA bodyNoName).2 = [] := by decide

/-- Claim C2 (amended): for every create request in which the name field or
the technology field is missing, create fails with the generic Internal
error (HTTP 500) and no project is persisted. -/
theorem C2_create_missing_field_internal (db : List Project) (now : Nat)
    (freshId uid : String) (body : ReqBody)
    (h : body.name = none ∨ body.technology = none) :
    (createProject db now freshId uid body).1 =
      { status := 500, body := .error "Internal server error" } ∧
    (createProject db now freshId uid body).2 = db := by
  rcases h with h | h
  · cases ht : body.technology <;> simp [createProject, h, ht]
  · cases hn : body.name <;> simp [createProject, h, hn]

/-- Witness for the amended C2 theorem: the concrete body with `name`
missing. -/
theorem C2_create_missing_field_witness :
    (createProject [] 0 pid1 idA bodyNoName).1 =
      { status := 500, body := .error "Internal server error" } ∧
    (createProject [] 0 pid1 idA bodyNoName).2 = [] :=
  C2_create_missing_field_internal [] 0 pid1 idA bodyNoName (Or.inl rfl)

/-- Claim C3: when the project id is a well-formed store identifier and no
project in the store both carries that id and has the caller as owner or
collaborator — which covers both a nonexistent project and an existing
project the caller has no access to — the update route answers exactly
`404 { error := "Project not found" }` and leaves the store unchanged, so
the two failing cases are indistinguishable to the caller. -/
theorem C3_update_notfound_uniform (db : List Project) (now : Nat)
    (uid pid : String) (updates : ReqBody)
    (hv : isValidObjectId pid = true)
    (h : ∀ p ∈ db, ¬(p._id = pid ∧ (p.owner = uid ∨ uid ∈ p.collaborators))) :
    (updateProject db now uid pid updates).1 =
      { status := 404, body := .error "Project not found" } ∧
    (updateProject db now uid pid updates).2 = db := by
  have hfind : db.find? (fun p => p._id == pid && visibleTo uid p) = none := by
    rw [List.find?_eq_none]
    intro p hp hcontra
    apply h p hp
    simp only [visibleTo, Bool.and_eq_true, beq_iff_eq,
      Bool.or_eq_true] at hcontra
    exact ⟨hcontra.1, hcontra.2.imp id List.elem_iff.mp⟩
  simp [updateProject, projectFindOneVisible, hv, hfind]

/-- Witness for C3: caller `idB` has no access to the only stored project
`pDemo` (owned by `idA`, no collaborators), yet the response is the same
404 as for a nonexistent id. -/
theorem C3_update_notfound_witness :
    (updateProject [pDemo] 5 idB pid1 patchStatus).1 =
      { status := 404, body := .error "Project not found" } ∧
    (updateProject [pDemo] 5 idB pid1 patchStatus).2 = [pDemo] :=
  C3_update_notfound_uniform [pDemo] 5 idB pid1 patchStatus (by decide)
    (by decide)

/-- Claim C4: a collaborator who is not the owner cannot delete: delete by
that caller answers 404 with the delete route's error body and leaves the
store unchanged, while update by the same caller on the same project — with
any patch whose assigned document passes save validation, the condition for
the program's `save()` not to throw — succeeds with 200; moreover delete
answers 200 only when the caller is the owner, and then every project with
that id is removed from the store. -/
theorem C4_collaborator_delete_vs_update (db : List Project) (now : Nat)
    (uid pid : String) (updates : ReqBody) (p : Project)
    (hv : isValidObjectId pid = true)
    (hp : p ∈ db) (hid : p._id = pid)
    (hcol : uid ∈ p.collaborators) (hnotown : p.owner ≠ uid)
    (huniq : ∀ q ∈ db, q._id = pid → q = p)
    (hvalid : validSave { assignUpdates p updates with updatedAt := now } =
      true) :
    (deleteProject db uid pid).1 =
      { status := 404,
        body := .error "Project not found or insufficient permissions" } ∧
    (deleteProject db uid pid).2 = db ∧
    (updateProject db now uid pid updates).1.status = 200 ∧
    ∀ uid2, (deleteProject db uid2 pid).1.status = 200 →
      p.owner = uid2 ∧ ∀ q ∈ (deleteProject db uid2 pid).2, q._id ≠ pid := by
  have hfind1 : db.find? (fun q => q._id == pid && q.owner == uid) = none := by
    rw [List.find?_eq_none]
    intro q hq hcontra
    simp only [Bool.and_eq_true, beq_iff_eq] at hcontra
    exact hnotown ((huniq q hq hcontra.1) ▸ hcontra.2)
  have hvis : visibleTo uid p = true := by
    simp only [visibleTo, Bool.or_eq_true, beq_iff_eq]
    exact Or.inr (List.elem_iff.mpr hcol)
  have hfind2 : db.find? (fun q => q._id == pid && visibleTo uid q) = some p :=
    find_visible_of_unique hp hid hvis huniq
  refine ⟨?_, ?_, ?_, ?_⟩
  · simp [deleteProject, projectFindOneOwned, hv, hfind1]
  · simp [deleteProject, projectFindOneOwned, hv, hfind1]
  · simp [updateProject, projectFindOneVisible, hv, hfind2, hvalid]
  · intro uid2 h200
    cases hfind3 : db.find? (fun q => q._id == pid && q.owner == uid2) with
    | none =>
      exfalso
      simp [deleteProject, projectFindOneOwned, hv, hfind3] at h200
    | some q =>
      have hqmem : q ∈ db := List.mem_of_find?_eq_some hfind3
      have hqpred := List.find?_some hfind3
      simp only [Bool.and_eq_true, beq_iff_eq] at hqpred
      have hqp : q = p := huniq q hqmem hqpred.1
      refine ⟨by rw [← hqp]; exact hqpred.2.symm ▸ rfl, ?_⟩
      intro r hr
      have : (deleteProject db uid2 pid).2 =
          db.filter (fun s => s._id != pid) := by
        simp [deleteProject, projectFindOneOwned, hv, hfind3]
      rw [this] at hr
      have := (List.mem_filter.mp hr).2
      simpa using this

/-- Witness for C4: store `[pShared]` (owner `idA`, collaborator `idB`),
caller `idB`, with a status-only patch whose assigned document passes save
validation. -/
theorem C4_collaborator_delete_vs_update_witness :
    (deleteProject [pShared] idB pid1).1 =
      { status := 404,
        body := .error "Project not found or insufficient permissions" } ∧
    (deleteProject [pShared] idB pid1).2 = [pShared] ∧
    (updateProject [pShared] 5 idB pid1 patchStatus).1.status = 200 ∧
    ∀ uid2, (deleteProject [pShared] uid2 pid1).1.status = 200 →
      pShared.owner = uid2 ∧
      ∀ q ∈ (deleteProject [pShared] uid2 pid1).2, q._id ≠ pid1 :=
  C4_collaborator_delete_vs_update [pShared] 5 idB pid1 patchStatus pShared
    (by decide) (by decide) (by decide) (by decide) (by decide) (by decide)
    (by decide)

/-- Claim C5: a login with an email matching no user and a login with an
existing email whose stored hash fails the bcrypt comparison produce the
very same response — status 401 and body `Invalid credentials` — so the
response does not reveal which condition occurred. -/
theorem C5_login_failure_indistinguishable (compare : String → String → Bool)
    (users : List User) (email1 email2 pw1 pw2 : String) (u : User)
    (h1 : ∀ v ∈ users, v.email ≠ email1)
    (h2 : users.find? (fun v => v.email == email2) = some u)
    (h3 : compare pw2 u.password = false) :
    login compare users email1 pw1 = login compare users email2 pw2 ∧
    login compare users email1 pw1 =
      { status := 401, body := .error "Invalid credentials" } := by
  have hnone : users.find? (fun v => v.email == email1) = none := by
    rw [List.find?_eq_none]
    intro v hv hcontra
    exact h1 v hv (by simpa using hcontra)
  constructor
  · simp [login, hnone, h2, h3]
  · simp [login, hnone]

/-- Witness for C5: one registered user `uAlice`; a nonexistent email and a
wrong password against the existing email give the same 401 response. -/
theorem C5_login_failure_witness :
    login (fun _ _ => false) [uAlice] "bob@x.com" "pw" =
      login (fun _ _ => false) [uAlice] "alice@x.com" "wrongpw" ∧
    login (fun _ _ => false) [uAlice] "bob@x.com" "pw" =
      { status := 401, body := .error "Invalid credentials" } :=
  C5_login_failure_indistinguishable (fun _ _ => false) [uAlice]
    "bob@x.com" "alice@x.com" "pw" "wrongpw" uAlice
    (by decide) (by simp [uAlice]) rfl

/-- Claim C6: the project list route returns exactly the projects in which
the caller is the owner or appears among the collaborators; in particular a
project with no collaborators is always listed for its owner and never for
any other user. -/
theorem C6_listVisible_exact (db : List Project) (uid : String)
    (p : Project) :
    (getProjects db uid).body = .projectList (projectFind db uid) ∧
    (p ∈ projectFind db uid ↔
      p ∈ db ∧ (p.owner = uid ∨ uid ∈ p.collaborators)) ∧
    (p ∈ db → p ∈ projectFind db p.owner) ∧
    (p.collaborators = [] → ∀ b, b ≠ p.owner → p ∉ projectFind db b) := by
  have hmem : ∀ b : String,
      p ∈ projectFind db b ↔
        p ∈ db ∧ (p.owner = b ∨ b ∈ p.collaborators) := by
    intro b
    simp only [projectFind, List.mem_filter, visibleTo, Bool.or_eq_true,
      beq_iff_eq]
    constructor
    · rintro ⟨h1, h2⟩
      exact ⟨h1, h2.imp id List.elem_iff.mp⟩
    · rintro ⟨h1, h2⟩
      exact ⟨h1, h2.imp id List.elem_iff.mpr⟩
  refine ⟨rfl, hmem uid, ?_, ?_⟩
  · intro hp
    exact (hmem p.owner).mpr ⟨hp, Or.inl rfl⟩
  · intro hempty b hb hcontra
    rcases ((hmem b).mp hcontra).2 with h | h
    · exact hb h.symm
    · rw [hempty] at h
      cases h

/-- Witness for C6 at the concrete store `[pDemo]`: the project owned by
`idA` with no collaborators. -/
theorem C6_listVisible_witness :
    (getProjects [pDemo] idA).body = .projectList (projectFind [pDemo] idA) ∧
    (pDemo ∈ projectFind [pDemo] idA ↔
      pDemo ∈ [pDemo] ∧ (pDemo.owner = idA ∨ idA ∈ pDemo.collaborators)) ∧
    (pDemo ∈ [pDemo] → pDemo ∈ projectFind [pDemo] pDemo.owner) ∧
    (pDemo.collaborators = [] →
      ∀ b, b ≠ pDemo.owner → pDemo ∉ projectFind [pDemo] b) :=
  C6_listVisible_exact [pDemo] idA pDemo

/-- Claim C7: for every create call carrying a name and a technology that
succeeds (answers 201 — that is, the built document passed save
validation), the project list of the creator immediately afterwards
contains a project whose name, description and technology equal the created
values and whose status is planning. -/
theorem C7_create_then_list_roundtrip (db : List Project) (now : Nat)
    (freshId uid nm tech : String) (body : ReqBody)
    (hn : body.name = some nm) (ht : body.technology = some tech)
    (hsucc : (createProject db now freshId uid body).1.status = 201) :
    ∃ p ∈ projectFind (createProject db now freshId uid body).2 uid,
      p.name = nm ∧ p.description = body.description ∧
      p.technology = tech ∧ p.status = .planning := by
  rw [createProject_eq db now freshId uid nm tech body hn ht] at hsucc ⊢
  by_cases hval : validSave
      (newProjectDoc now freshId uid nm body.description tech) = true
  · rw [if_pos hval]
    refine ⟨newProjectDoc now freshId uid nm body.description tech,
            ?_, rfl, rfl, rfl, rfl⟩
    refine List.mem_filter.mpr ⟨?_, ?_⟩
    · exact List.mem_append_right db (List.mem_singleton.mpr rfl)
    · simp [visibleTo, newProjectDoc]
  · rw [if_neg hval] at hsucc
    simp at hsucc

/-- Witness for C7 at concrete inputs: `idA` creates `bodyDemo` over the
empty store; the create succeeds with 201. -/
theorem C7_create_then_list_witness :
    ∃ p ∈ projectFind (createProject [] 0 pid1 idA bodyDemo).2 idA,
      p.name = "Demo" ∧ p.description = bodyDemo.description ∧
      p.technology = "React" ∧ p.status = .planning :=
  C7_create_then_list_roundtrip [] 0 pid1 idA "Demo" "React" bodyDemo rfl rfl
    (by decide)

/-- Claim C8: a broadcast to a project channel is delivered to exactly the
connections currently joined to that channel other than the sender; the
sender never receives its own broadcast, and a connection joined only to a
different channel receives nothing. -/
theorem C8_publish_recipients_exact (rooms : Rooms)
    (senderId projectId c : String) :
    (c ∈ projectUpdateRecipients rooms senderId projectId ↔
      (c, roomOf projectId) ∈ rooms ∧ c ≠ senderId) ∧
    senderId ∉ projectUpdateRecipients rooms senderId projectId ∧
    (∀ p2, p2 ≠ projectId →
      c ∉ projectUpdateRecipients (joinProject [] c projectId) senderId p2) := by
  have hmain : ∀ (rs : Rooms) (s pid c0 : String),
      c0 ∈ projectUpdateRecipients rs s pid ↔
        (c0, roomOf pid) ∈ rs ∧ c0 ≠ s := by
    intro rs s pid c0
    simp only [projectUpdateRecipients, List.mem_map, List.mem_filter]
    constructor
    · rintro ⟨⟨cm, rm⟩, ⟨hmem, hpred⟩, hc⟩
      simp only [Bool.and_eq_true, beq_iff_eq, bne_iff_ne, ne_eq] at hpred
      cases hc
      exact ⟨hpred.1 ▸ hmem, hpred.2⟩
    · rintro ⟨hmem, hne⟩
      exact ⟨(c0, roomOf pid), ⟨hmem, by simp [hne]⟩, rfl⟩
  refine ⟨hmain rooms senderId projectId c, ?_, ?_⟩
  · intro hcontra
    exact ((hmain rooms senderId projectId senderId).mp hcontra).2 rfl
  · intro p2 hp2 hcontra
    have hmem := ((hmain _ senderId p2 c).mp hcontra).1
    have hj : joinProject [] c projectId = [(c, roomOf projectId)] := rfl
    rw [hj] at hmem
    simp only [List.mem_singleton, Prod.mk.injEq] at hmem
    exact hp2 (roomOf_injective hmem.2)

/-- Witness for C8 at a concrete membership table: connections `c1` and
`c2` joined to channel `p1`, sender `c1`, receiver `c2`. -/
theorem C8_publish_recipients_witness :
    ("c2" ∈ projectUpdateRecipients
        [("c1", roomOf "p1"), ("c2", roomOf "p1")] "c1" "p1" ↔
      ("c2", roomOf "p1") ∈ [("c1", roomOf "p1"), ("c2", roomOf "p1")] ∧
        "c2" ≠ "c1") ∧
    "c1" ∉ projectUpdateRecipients
        [("c1", roomOf "p1"), ("c2", roomOf "p1")] "c1" "p1" ∧
    (∀ p2, p2 ≠ "p1" →
      "c2" ∉ projectUpdateRecipients (joinProject [] "c2" "p1") "c1" p2) :=
  C8_publish_recipients_exact
    [("c1", roomOf "p1"), ("c2", roomOf "p1")] "c1" "p1" "c2"

/-- Claim C9: an update or delete whose id path parameter is not a valid
store identifier is answered by the generic 500 Internal response produced
by the catch block (the id cast throws before any document is searched),
not by the 404 used for well-formed ids matching no accessible project; the
store is unchanged. -/
theorem C9_invalid_id_internal_error (db : List Project) (now : Nat)
    (uid id : String) (updates : ReqBody)
    (h : isValidObjectId id = false) :
    (updateProject db now uid id updates).1 =
      { status := 500, body := .error "Internal server error" } ∧
    (deleteProject db uid id).1 =
      { status := 500, body := .error "Internal server error" } ∧
    (updateProject db now uid id updates).1.status ≠ 404 ∧
    (deleteProject db uid id).1.status ≠ 404 ∧
    (updateProject db now uid id updates).2 = db ∧
    (deleteProject db uid id).2 = db := by
  have h1 : projectFindOneVisible db id uid = .error () := by
    simp [projectFindOneVisible, h]
  have h2 : projectFindOneOwned db id uid = .error () := by
    simp [projectFindOneOwned, h]
  refine ⟨?_, ?_, ?_, ?_, ?_, ?_⟩ <;>
    simp [updateProject, deleteProject, h1, h2]

/-- Witness for C9 at the concrete malformed id `not-an-objectid`. -/
theorem C9_invalid_id_witness :
    (updateProject [pDemo] 5 idA "not-an-objectid" patchStatus).1 =
      { status := 500, body := .error "Internal server error" } ∧
    (deleteProject [pDemo] idA "not-an-objectid").1 =
      { status := 500, body := .error "Internal server error" } ∧
    (updateProject [pDemo] 5 idA "not-an-objectid" patchStatus).1.status ≠ 404 ∧
    (deleteProject [pDemo] idA "not-an-objectid").1.status ≠ 404 ∧
    (updateProject [pDemo] 5 idA "not-an-objectid" patchStatus).2 = [pDemo] ∧
    (deleteProject [pDemo] idA "not-an-objectid").2 = [pDemo] :=
  C9_invalid_id_internal_error [pDemo] 5 idA "not-an-objectid" patchStatus
    (by decide)

/-- Claim C10: create reads only the name, description and technology keys
of the body — two bodies agreeing on those three keys produce identical
responses and store states — and every created project has status planning,
the caller as owner, no collaborators, and both timestamps set to now. -/
theorem C10_create_reads_only_three_fields (db : List Project) (now : Nat)
    (freshId uid : String) (body1 body2 : ReqBody)
    (hn : body1.name = body2.name)
    (hd : body1.description = body2.description)
    (ht : body1.technology = body2.technology) :
    createProject db now freshId uid body1 =
      createProject db now freshId uid body2 ∧
    ∀ p, (createProject db now freshId uid body1).1.body = .projectDoc p →
      p.status = .planning ∧ p.owner = uid ∧ p.collaborators = [] ∧
      p.createdAt = now ∧ p.updatedAt = now := by
  constructor
  · unfold createProject
    rw [hn, ht, hd]
  · intro p hp
    cases hname : body1.name with
    | none =>
      cases htech : body1.technology <;>
        simp [createProject, hname, htech] at hp
    | some nm =>
      cases htech : body1.technology with
      | none => simp [createProject, hname, htech] at hp
      | some tech =>
        simp only [createProject, hname, htech] at hp
        split at hp
        · simp only at hp
          cases hp
          exact ⟨rfl, rfl, rfl, rfl, rfl⟩
        · simp at hp

/-- Witness for C10: `bodyExtra` additionally supplies `status`, `owner`,
`collaborators` and `createdAt` keys, yet the result is identical to
creating from `bodyDemo`. -/
theorem C10_create_reads_only_witness :
    createProject [] 7 pid1 idA bodyExtra =
      createProject [] 7 pid1 idA bodyDemo ∧
    ∀ p, (createProject [] 7 pid1 idA bodyExtra).1.body = .projectDoc p →
      p.status = .planning ∧ p.owner = idA ∧ p.collaborators = [] ∧
      p.createdAt = 7 ∧ p.updatedAt = 7 :=
  C10_create_reads_only_three_fields [] 7 pid1 idA bodyExtra bodyDemo
    rfl rfl rfl

end McpDemo
